import Mathlib

/-!
Verification development for the answer-resolution and self-learning pipeline
of a FAQ chat service (`src/app.py`).  The Python source is shallowly embedded:
pure string manipulation becomes Lean functions on `String`/`List Char`;
every external call (Supabase store reads/writes, the OpenRouter completion
endpoint, the website fetch) is represented by an explicit outcome parameter
(`Except Unit _` where `.error` models a raised exception, `Option` where the
Python code already converts failures to `None`).  Python floats arising as
token-overlap ratios are modelled as exact rationals (`ℚ`); all ratios in the
program are small quotients of token counts, far from any double-rounding
boundary.  Character classes (`\w`, `\s`, `str.lower`, `str.strip`) are
modelled exactly on ASCII; non-ASCII characters are conservatively treated as
word characters (the repository's data is Vietnamese text, whose letters are
`\w` for Python's Unicode regexes, and no non-ASCII punctuation occurs in any
statement below).
-/

/-- ASCII model of Python's regex class `\s` (the whitespace removed by
`str.strip()` and split on by `str.split()`). -/
def isSpaceChar (c : Char) : Bool :=
  c == ' ' || c == '\t' || c == '\n' || c == '\x0d' || c == '\x0b' || c == '\x0c'

/-- Model of Python's regex class `\w`: ASCII alphanumerics and underscore;
non-ASCII characters are treated as word characters (Vietnamese letters are
`\w` in Python's Unicode semantics). -/
def isWordChar (c : Char) : Bool :=
  c.isAlphanum || c == '_' || decide (128 ≤ c.toNat)

/-- A character kept by `re.sub(r"[^\w\s]", "", ·)`. -/
def isKeptChar (c : Char) : Bool := isWordChar c || isSpaceChar c

/-- Python `str.strip()` on a character list: drop whitespace from both ends. -/
def stripChars (l : List Char) : List Char :=
  ((l.dropWhile isSpaceChar).reverse.dropWhile isSpaceChar).reverse

/-- Python `str.strip()`. -/
def pyStrip (s : String) : String := ⟨stripChars s.data⟩

/-- Python `str.lower()` (ASCII case folding). -/
def pyLower (s : String) : String := ⟨s.data.map Char.toLower⟩

/-- Model of `re.sub(r"[^\w\s]", "", s.lower())` — lower-case, then delete every
character that is neither a word character nor whitespace. -/
def pyCleanLower (s : String) : String :=
  ⟨(s.data.map Char.toLower).filter isKeptChar⟩

/-- The cleaned query of `search_faq` (src/app.py line 332):
`re.sub(r"[^\w\s]", "", query.lower()).strip()`. -/
def queryClean (s : String) : String := pyStrip (pyCleanLower s)

/-- Accumulator-style worker for Python `str.split()`: split on whitespace
runs, discarding empty fragments.  `cur` holds the current fragment reversed. -/
def pySplitAux : List Char → List Char → List String
  | [], cur => if cur = [] then [] else [⟨cur.reverse⟩]
  | c :: rest, cur =>
    if isSpaceChar c then
      if cur = [] then pySplitAux rest []
      else ⟨cur.reverse⟩ :: pySplitAux rest []
    else pySplitAux rest (c :: cur)

/-- Python `str.split()` with no separator argument. -/
def pySplit (s : String) : List String := pySplitAux s.data []

/-- Model of `set(s.split())` — the token set of a string. -/
def tokenSet (s : String) : Finset String := (pySplit s).toFinset

/-- A row of the `faq` table: `{"question": ..., "answer": ...}`. -/
structure Row where
  question : String
  answer : String
deriving DecidableEq

/-- Token set of a stored question as the fuzzy pass computes it
(src/app.py lines 351-352): `set(re.sub(r"[^\w\s]", "", q.lower()).split())`. -/
def rowTokens (r : Row) : Finset String := tokenSet (pyCleanLower r.question)

/-- The exact-match comparison of src/app.py line 342:
`row["question"].strip().lower() == query_clean`. -/
def exact_hit (qc : String) (r : Row) : Bool := pyLower (pyStrip r.question) == qc

/-- The fuzzy ratio of src/app.py lines 356-357:
`overlap / total_words` with `overlap = len(query_words & faq_words)` and
`total_words = len(faq_words)`, as an exact rational (`Rat.divInt` is the
rational quotient; see `ratioOf_eq_div` below). -/
def ratioOf (qw : Finset String) (r : Row) : ℚ :=
  Rat.divInt ((qw ∩ rowTokens r).card : ℤ) (((rowTokens r).card : ℤ))

/-- The fuzzy threshold `0.7` of src/app.py line 358, as an exact rational. -/
def fuzzyThreshold : ℚ := Rat.divInt 7 10

/-- One iteration of the fuzzy loop (src/app.py lines 350-360): skip rows with
an empty token set, otherwise adopt the row when
`ratio > highest_overlap and ratio >= 0.7`. -/
def fuzzyStep (qw : Finset String) (acc : Option String × ℚ) (r : Row) :
    Option String × ℚ :=
  if (rowTokens r).card = 0 then acc
  else if ratioOf qw r > acc.2 ∧ ratioOf qw r ≥ fuzzyThreshold then
    (some r.answer, ratioOf qw r)
  else acc

/-- The fuzzy pass over all rows, starting from
`best_match = None; highest_overlap = 0`. -/
def fuzzyBest (qw : Finset String) (rows : List Row) : Option String :=
  (rows.foldl (fuzzyStep qw) (none, 0)).1

/-- Body of `search_faq` (src/app.py lines 331-362) after a successful store read:
exact pass over the rows in order, then the fuzzy-overlap pass. -/
def search_faq_ok (query : String) (rows : List Row) : Option String :=
  if queryClean query = "" then none
  else if rows = [] then none
  else
    match rows.find? (exact_hit (queryClean query)) with
    | some r => some r.answer
    | none => fuzzyBest (tokenSet (queryClean query)) rows

/-- Model of `search_faq` with the store read outcome explicit: the cleaned-query
emptiness test runs before the read; a read failure (a raised exception, the
read is not guarded by try/except) propagates to the caller. -/
def search_faq (query : String) (read : Except Unit (List Row)) :
    Except Unit (Option String) :=
  if queryClean query = "" then .ok none
  else
    match read with
    | .error e => .error e
    | .ok rows => .ok (search_faq_ok query rows)

/-- Does `pat` match a prefix of the second list?  (Helper for Python's
`str.replace` and the `in` containment test.) -/
def subAt : List Char → List Char → Bool
  | [], _ => true
  | _ :: _, [] => false
  | a :: as, b :: bs => a == b && subAt as bs

/-- Does the first list occur as a contiguous sublist of the second?
(Python's `needle in hay` for strings.) -/
def hasSub : List Char → List Char → Bool
  | n, [] => n.isEmpty
  | n, c :: rest => subAt n (c :: rest) || hasSub n rest

/-- Fuel-driven worker for Python `str.replace`: scan left to right, replacing
non-overlapping occurrences of `pat` (assumed non-empty) by `rep`. -/
def replChars (pat rep : List Char) : Nat → List Char → List Char
  | 0, l => l
  | _ + 1, [] => []
  | fuel + 1, c :: rest =>
    if subAt pat (c :: rest) then
      rep ++ replChars pat rep fuel (rest.drop (pat.length - 1))
    else c :: replChars pat rep fuel rest

/-- Python `s.replace(pat, rep)`.  All patterns used by the program are
non-empty; an empty pattern returns `s` unchanged. -/
def replaceSub (s pat rep : String) : String :=
  if pat.data = [] then s else ⟨replChars pat.data rep.data s.data.length s.data⟩

/-- Python `needle in hay` on strings. -/
def strContains (hay needle : String) : Bool := hasSub needle.data hay.data

/-- The generation-artifact markers removed by `clean_model_output`
(src/app.py line 315). -/
def artifactMarkers : List String := ["<s>", "</s>", "[OUT]", "[OUT] ", "[INST]", "[/INST]"]

/-- Model of `clean_model_output` (src/app.py lines 312-318): empty input is returned
as is; otherwise each artifact marker is replaced by the empty string in
order, and the result is stripped. -/
def clean_model_output (text : String) : String :=
  if text = "" then text
  else pyStrip (artifactMarkers.foldl (fun t tok => replaceSub t tok "") text)

/-- The fixed apology sentinel of `ai_fallback` (src/app.py lines 115 and 120)
and of the chat route's final fallback (line 431). -/
def apology : String := "Xin lỗi, tôi không thể trả lời câu hỏi này."

/-- Model of `ai_fallback` (src/app.py lines 78-120), abstracted over the outcome of
the completion request: `.error` models any raised exception (transport error,
unparsable response body, missing fields raising), `.ok none` models a
response whose extracted `content` is `None`, and `.ok (some c)` a string
content `c`.  The prompt built from the FAQ snapshot does not influence the
returned value given the response outcome, so it is not modelled. -/
def ai_fallback (outcome : Except Unit (Option String)) : String :=
  match outcome with
  | .error _ => apology
  | .ok none => apology
  | .ok (some content) =>
    if content = "" then apology
    else if pyStrip content = "" then apology
    else pyStrip content

/-- The topic keyword list of `is_website_related` (src/app.py lines 395-398). -/
def websiteKeywords : List String :=
  ["thư viện", "library", "mượn sách", "giờ mở cửa", "sách", "tài liệu", "trang web", "website"]

/-- Model of `is_website_related` (src/app.py lines 390-400): substring containment of
any keyword in the lower-cased message. -/
def is_website_related (msg : String) : Bool :=
  websiteKeywords.any (fun k => strContains (pyLower msg) k)

/-- The opening-brace character, written by code point to keep string and
character literals free of raw braces. -/
def braceL : Char := Char.ofNat 123

/-- The closing-brace character. -/
def braceR : Char := Char.ofNat 125

/-- The single-quote character. -/
def squoteC : Char := Char.ofNat 39

/-- The single-quote character as a one-character string. -/
def squoteS : String := ⟨[squoteC]⟩

/-- JSON values, as `json.loads` produces them: the number constructors store
`mantissa * 10 ^ exponent` exactly. -/
inductive JsonVal where
  | null : JsonVal
  | bool (b : Bool) : JsonVal
  | num (mantissa : Int) (exponent : Int) : JsonVal
  | str (s : String) : JsonVal
  | arr (elems : List JsonVal) : JsonVal
  | obj (fields : List (String × JsonVal)) : JsonVal

/-- The whitespace skipped between JSON tokens by `json.loads`. -/
def isJsonWs (c : Char) : Bool := c == ' ' || c == '\t' || c == '\n' || c == '\x0d'

/-- Value of a hexadecimal digit. -/
def hexDigitVal (c : Char) : Option Nat :=
  if c.isDigit then some (c.toNat - 48)
  else if 'a' ≤ c ∧ c ≤ 'f' then some (c.toNat - 87)
  else if 'A' ≤ c ∧ c ≤ 'F' then some (c.toNat - 55)
  else none

/-- Four hexadecimal digits of a `\uXXXX` escape. -/
def parseHex4 : List Char → Option (Nat × List Char)
  | a :: b :: c :: d :: rest => do
    let x ← hexDigitVal a
    let y ← hexDigitVal b
    let z ← hexDigitVal c
    let w ← hexDigitVal d
    some (((x * 16 + y) * 16 + z) * 16 + w, rest)
  | _ => none

/-- Body of a JSON string after the opening quote.  Strict like `json.loads`:
only the JSON escapes are accepted and unescaped control characters are
rejected.  (`\uXXXX` is mapped through `Char.ofNat`; surrogate pairs are not
recombined — no statement below involves them.) -/
def parseStringBody : Nat → List Char → List Char → Option (String × List Char)
  | 0, _, _ => none
  | _ + 1, [], _ => none
  | fuel + 1, c :: rest, acc =>
    if c == '"' then some (⟨acc.reverse⟩, rest)
    else if c == '\\' then
      match rest with
      | [] => none
      | e :: rest2 =>
        if e == '"' then parseStringBody fuel rest2 ('"' :: acc)
        else if e == '\\' then parseStringBody fuel rest2 ('\\' :: acc)
        else if e == '/' then parseStringBody fuel rest2 ('/' :: acc)
        else if e == 'b' then parseStringBody fuel rest2 ('\x08' :: acc)
        else if e == 'f' then parseStringBody fuel rest2 ('\x0c' :: acc)
        else if e == 'n' then parseStringBody fuel rest2 ('\n' :: acc)
        else if e == 'r' then parseStringBody fuel rest2 ('\x0d' :: acc)
        else if e == 't' then parseStringBody fuel rest2 ('\t' :: acc)
        else if e == 'u' then
          match parseHex4 rest2 with
          | some (n, rest3) => parseStringBody fuel rest3 (Char.ofNat n :: acc)
          | none => none
        else none
    else if c.toNat < 32 then none
    else parseStringBody fuel rest (c :: acc)

/-- Leading decimal digits of a list, as digit values. -/
def takeDigits : List Char → List Nat × List Char
  | [] => ([], [])
  | c :: rest =>
    if c.isDigit then
      let (ds, r) := takeDigits rest
      ((c.toNat - 48) :: ds, r)
    else ([], c :: rest)

/-- Digits to the natural number they denote. -/
def digitsToNat (ds : List Nat) : Nat := ds.foldl (fun a d => a * 10 + d) 0

/-- Fraction part of a JSON number (empty when absent). -/
def parseFrac : List Char → Option (List Nat × List Char)
  | l =>
    match l with
    | c :: rest =>
      if c == '.' then
        let (ds, r) := takeDigits rest
        if ds = [] then none else some (ds, r)
      else some ([], l)
    | [] => some ([], l)

/-- Exponent part of a JSON number (`0` when absent). -/
def parseExpPart : List Char → Option (Int × List Char)
  | [] => some (0, [])
  | c :: rest =>
    if c == 'e' ∨ c == 'E' then
      let (negE, r1) : Bool × List Char :=
        match rest with
        | s :: r => if s == '+' then (false, r) else if s == '-' then (true, r) else (false, rest)
        | [] => (false, rest)
      let (ds, r2) := takeDigits r1
      if ds = [] then none
      else some (if negE then -(digitsToNat ds : Int) else (digitsToNat ds : Int), r2)
    else some (0, c :: rest)

/-- A JSON number literal, strict like `json.loads` (no leading zeros, a
fraction or exponent must carry digits). -/
def parseNumber (l : List Char) : Option (JsonVal × List Char) :=
  let (neg, l1) : Bool × List Char :=
    match l with
    | c :: rest => if c == '-' then (true, rest) else (false, l)
    | [] => (false, l)
  let (ids, r1) := takeDigits l1
  if ids = [] then none
  else if ids.length > 1 ∧ ids.headD 1 = 0 then none
  else
    match parseFrac r1 with
    | none => none
    | some (fds, r2) =>
      match parseExpPart r2 with
      | none => none
      | some (ex, r3) =>
        let mag : Nat := digitsToNat (ids ++ fds)
        let mantissa : Int := if neg then -(mag : Int) else (mag : Int)
        some (.num mantissa (ex - fds.length), r3)

mutual

/-- A JSON value, recursive descent with fuel, mirroring `json.loads`. -/
def parseValue : Nat → List Char → Option (JsonVal × List Char)
  | 0, _ => none
  | fuel + 1, input =>
    match input.dropWhile isJsonWs with
    | [] => none
    | c :: rest =>
      if c == braceL then
        match rest.dropWhile isJsonWs with
        | c2 :: r2 => if c2 == braceR then some (.obj [], r2) else parseMembers fuel (c2 :: r2) []
        | [] => none
      else if c == '[' then
        match rest.dropWhile isJsonWs with
        | c2 :: r2 => if c2 == ']' then some (.arr [], r2) else parseElements fuel (c2 :: r2) []
        | [] => none
      else if c == '"' then
        match parseStringBody (rest.length + 1) rest [] with
        | some (s, r) => some (.str s, r)
        | none => none
      else if subAt ['t', 'r', 'u', 'e'] (c :: rest) then some (.bool true, (c :: rest).drop 4)
      else if subAt ['f', 'a', 'l', 's', 'e'] (c :: rest) then some (.bool false, (c :: rest).drop 5)
      else if subAt ['n', 'u', 'l', 'l'] (c :: rest) then some (.null, (c :: rest).drop 4)
      else parseNumber (c :: rest)

/-- The members of a JSON object after its opening brace (non-empty case). -/
def parseMembers : Nat → List Char → List (String × JsonVal) →
    Option (JsonVal × List Char)
  | 0, _, _ => none
  | fuel + 1, input, acc =>
    match input.dropWhile isJsonWs with
    | [] => none
    | c :: rest =>
      if c == '"' then
        match parseStringBody (rest.length + 1) rest [] with
        | some (key, r1) =>
          match r1.dropWhile isJsonWs with
          | sep1 :: r2 =>
            if sep1 == ':' then
              match parseValue fuel r2 with
              | some (v, r3) =>
                match r3.dropWhile isJsonWs with
                | sep2 :: r4 =>
                  if sep2 == ',' then parseMembers fuel r4 (acc ++ [(key, v)])
                  else if sep2 == braceR then some (.obj (acc ++ [(key, v)]), r4)
                  else none
                | [] => none
              | none => none
            else none
          | [] => none
        | none => none
      else none

/-- The elements of a JSON array after its opening bracket (non-empty case). -/
def parseElements : Nat → List Char → List JsonVal → Option (JsonVal × List Char)
  | 0, _, _ => none
  | fuel + 1, input, acc =>
    match parseValue fuel input with
    | some (v, r1) =>
      match r1.dropWhile isJsonWs with
      | sep :: r2 =>
        if sep == ',' then parseElements fuel r2 (acc ++ [v])
        else if sep == ']' then some (.arr (acc ++ [v]), r2)
        else none
      | [] => none
    | none => none

end

/-- Model of `json.loads`: parse one value and require only whitespace to remain. -/
def json_loads (s : String) : Option JsonVal :=
  match parseValue (2 * s.data.length + 4) s.data with
  | some (v, rest) => if rest.dropWhile isJsonWs = [] then some v else none
  | none => none

/-- Python `dict.get(key)` on a parsed object: with duplicate keys the last
binding wins, as in `json.loads`; `none` both for a missing key and for a
non-object. -/
def objGet (j : JsonVal) (key : String) : Option JsonVal :=
  match j with
  | .obj fields => (fields.reverse.find? (fun kv => kv.1 == key)).map (·.2)
  | _ => none

/-- Python truthiness of a decoded JSON value. -/
def jsonTruthy : JsonVal → Bool
  | .null => false
  | .bool b => b
  | .num m _ => m != 0
  | .str s => s != ""
  | .arr l => !l.isEmpty
  | .obj f => !f.isEmpty

/-- Python `a or b` over optional decoded values (`none` is a missing key,
hence falsy). -/
def pyOrJ (a b : Option JsonVal) : Option JsonVal :=
  match a with
  | some v => if jsonTruthy v then some v else b
  | none => b

/-- Python `... or ""`: the value if truthy, else the empty string. -/
def orEmptyStr (v : Option JsonVal) : JsonVal :=
  match v with
  | some w => if jsonTruthy w then w else .str ""
  | none => .str ""

/-- Python `v.strip()` on a decoded value: succeeds only on strings; on any
other value the attribute access raises (`.error`). -/
def asStrStrip : JsonVal → Except Unit String
  | .str s => .ok (pyStrip s)
  | _ => .error ()

/-- The record `ai_generate_new_faq` builds from a parsed response
(src/app.py lines 209-217); the `raw` debugging field is not modelled. -/
structure GenResult where
  is_new_faq : Bool
  question : String
  answer : String
deriving DecidableEq

/-- Lines 209-217 of src/app.py: coalesce the alternate key spellings,
truthiness-convert the flag, and strip both strings; a non-string truthy
value raises at `.strip()` (`.error`). -/
def coalesce_faq (j : JsonVal) : Except Unit GenResult :=
  let isNew :=
    match pyOrJ (objGet j "is_new_faq") (objGet j "is_new") with
    | some v => jsonTruthy v
    | none => false
  match asStrStrip (orEmptyStr (pyOrJ (objGet j "question") (objGet j "q"))) with
  | .error e => .error e
  | .ok q =>
    match asStrStrip (orEmptyStr (pyOrJ (objGet j "answer") (objGet j "a"))) with
    | .error e => .error e
    | .ok a => .ok ⟨isNew, q, a⟩

/-- Model of the brace search at src/app.py line 229: the suffix of the text
starting at the first opening brace, if any. -/
def findBrace : List Char → Option (List Char)
  | [] => none
  | c :: rest => if c == braceL then some (c :: rest) else findBrace rest

/-- The depth-tracking scan of src/app.py lines 234-240, started on a suffix
whose first character is the opening brace: accumulate characters, increment
on a brace open, decrement on a close, and emit the candidate substring when
the depth returns to zero. -/
def scanBalanced : List Char → Int → List Char → Option (List Char)
  | [], _, _ => none
  | c :: rest, depth, acc =>
    if c == braceL then scanBalanced rest (depth + 1) (acc ++ [c])
    else if c == braceR then
      if depth - 1 = 0 then some (acc ++ [c])
      else scanBalanced rest (depth - 1) (acc ++ [c])
    else scanBalanced rest depth (acc ++ [c])

/-- The repair pass of src/app.py line 247: `candidate.replace("'", "\"")`. -/
def repairQuotes (s : String) : String := replaceSub s squoteS "\""

/-- A single-quoted JSON-like payload, used to exercise the repair pass:
`\x7b'is_new_faq': true, 'question': 'Q', 'answer': 'A'\x7d`. -/
def jsonSingleQuoted : String :=
  ⟨[braceL]⟩ ++ squoteS ++ "is_new_faq" ++ squoteS ++ ": true, " ++ squoteS ++
    "question" ++ squoteS ++ ": " ++ squoteS ++ "Q" ++ squoteS ++ ", " ++ squoteS ++
    "answer" ++ squoteS ++ ": " ++ squoteS ++ "A" ++ squoteS ++ ⟨[braceR]⟩

/-- Model of `try_load_json_from_text` (src/app.py lines 223-252): locate the first
balanced brace-delimited substring, try `json.loads` on it, on failure try
once more after normalizing quotes, otherwise `None`. -/
def try_load_json_from_text (text : String) : Option JsonVal :=
  match findBrace text.data with
  | none => none
  | some suffix =>
    match scanBalanced suffix 0 [] with
    | none => none
    | some candChars =>
      let candidate : String := ⟨candChars⟩
      match json_loads candidate with
      | some j => some j
      | none =>
        match json_loads (repairQuotes candidate) with
        | some j => some j
        | none => none

/-- Python truthiness of the optional `answer` variable in `chat`
(`None` and `""` are falsy). -/
def truthyStr : Option String → Bool
  | none => false
  | some s => s != ""

/-- The self-learning insert decision (src/app.py lines 446-450), given the
already-cleaned candidate fields: when the judgment is positive and both
fields are non-empty, probe the store with the candidate question through
`search_faq`; insert only when the probe result is falsy.  The probe read and
the insert each carry an explicit outcome: a probe-read exception aborts the
block (the outer try swallows it, so nothing is inserted), and a failing
insert stores nothing (`auto_insert_faq` swallows its own exceptions).
Returns the list of rows the block durably inserts. -/
def learn_inserts (g : GenResult) (probeRead : Except Unit (List Row))
    (insertOutcome : Except Unit Unit) : List Row :=
  if g.is_new_faq = true ∧ clean_model_output (pyStrip g.question) ≠ ""
      ∧ clean_model_output (pyStrip g.answer) ≠ "" then
    match search_faq (clean_model_output (pyStrip g.question)) probeRead with
    | .error _ => []
    | .ok similar =>
      if truthyStr similar = true then []
      else if clean_model_output (pyStrip g.question) = ""
          ∨ clean_model_output (pyStrip g.answer) = "" then []
      else
        match insertOutcome with
        | .ok _ => [⟨clean_model_output (pyStrip g.question),
                     clean_model_output (pyStrip g.answer)⟩]
        | .error _ => []
  else []

/-- One complete learning step as a transformer of the store contents: the
probe reads the current store successfully and the insert succeeds.  Used to
state the double-submission (idempotence) property of the growth controller. -/
def learn_update (g : GenResult) (store : List Row) : List Row :=
  store ++ learn_inserts g (.ok store) (.ok ())

/-- Outcome of the `/api/chat` route as the HTTP caller observes it. -/
inductive ChatResult where
  | reply (text : String) : ChatResult
  | badRequest : ChatResult
  | serverError : ChatResult
deriving DecidableEq

/-- One `chat_history` row as `save_history` inserts it
(src/app.py lines 301-306). -/
structure HistEntry where
  session : Option String
  userMessage : String
  botReply : String
deriving DecidableEq

/-- The observable outcome of one `chat` request: the HTTP result, the
history rows whose insertion was attempted, and the FAQ rows the learning
block durably inserted. -/
structure ChatOut where
  result : ChatResult
  historyAppends : List HistEntry
  inserted : List Row
deriving DecidableEq

/-- Outcomes of every external call one `chat` request can make. -/
structure ChatWorld where
  /-- The `faq` read inside the main `search_faq` call (line 336);
  `.error` is a raised store exception. -/
  faqRead : Except Unit (List Row)
  /-- `fetch_website_text()` (lines 367-387): already `None` on any error. -/
  websiteText : Option String
  /-- Completion outcome for the contextual `ai_fallback` call (line 423). -/
  aiContextual : Except Unit (Option String)
  /-- Completion outcome for the plain `ai_fallback` call (line 430). -/
  aiPlain : Except Unit (Option String)
  /-- The `chat_history` insert of `save_history` (line 434); unguarded. -/
  historyWrite : Except Unit Unit
  /-- What `ai_generate_new_faq` comes back with (line 438); `.error` is a
  raise inside it (e.g. a non-string field at `.strip()`). -/
  genOutcome : Except Unit GenResult
  /-- The `faq` read inside the learning probe `search_faq` call (line 447). -/
  probeRead : Except Unit (List Row)
  /-- The `faq` insert of `auto_insert_faq` (line 449). -/
  insertOutcome : Except Unit Unit

/-- Step 3 of `chat` (lines 429-431): plain `ai_fallback`, cleaned, with the
apology substituted for an emptied result. -/
def finalFallback (aiPlain : Except Unit (Option String)) : String :=
  if clean_model_output (ai_fallback aiPlain) = "" then apology
  else clean_model_output (ai_fallback aiPlain)

/-- Step 1 of `chat` (lines 415-416): the FAQ tier result, cleaned when
truthy (`answer = clean_model_output(answer) if answer else None`). -/
def chatAnswer1 (r1 : Option String) : Option String :=
  match r1 with
  | none => none
  | some a => if a = "" then none else some (clean_model_output a)

/-- Step 2 of `chat` (lines 419-426): when the FAQ answer is falsy and the
message is website-related, fetch the website text; when that text is truthy,
overwrite the answer with the cleaned contextual completion. -/
def chatAnswer2 (m : String) (websiteText : Option String)
    (aiContextual : Except Unit (Option String)) (a1 : Option String) : Option String :=
  if ¬ truthyStr a1 = true ∧ is_website_related m = true then
    match websiteText with
    | some wt =>
      if wt = "" then a1
      else some (clean_model_output (ai_fallback aiContextual))
    | none => a1
  else a1

/-- Step 3 of `chat` (lines 429-431): when the answer is still falsy or
whitespace-only, overwrite it with the plain completion fallback. -/
def chatAnswer3 (aiPlain : Except Unit (Option String)) (a2 : Option String) : String :=
  match a2 with
  | none => finalFallback aiPlain
  | some s => if s = "" ∨ pyStrip s = "" then finalFallback aiPlain else s

/-- The final answer of `chat` for a message `m` after a successful store
read returning `rows`. -/
def chatAnswer (m : String) (rows : List Row) (w : ChatWorld) : String :=
  chatAnswer3 w.aiPlain
    (chatAnswer2 m w.websiteText w.aiContextual (chatAnswer1 (search_faq_ok m rows)))

/-- Step 5 of `chat` (lines 437-454): the rows the learning block inserts;
a raise inside `ai_generate_new_faq` is caught by the surrounding try. -/
def chatInserted (w : ChatWorld) : List Row :=
  match w.genOutcome with
  | .error _ => []
  | .ok g => learn_inserts g w.probeRead w.insertOutcome

/-- The `/api/chat` handler (src/app.py lines 403-456).  `msg` is the
`message` field of the request body (`none` when missing).  Every branch
mirrors the Python control flow: missing/empty message is rejected first; the
FAQ tier, the website-context tier and the plain completion tier follow in
order, each entered only when `answer` is still falsy (or blank after
stripping); `save_history` runs unguarded; the learning block runs inside
try/except and cannot influence the response. -/
def chat (msg : Option String) (session_id : Option String) (w : ChatWorld) : ChatOut :=
  match msg with
  | none => ⟨.badRequest, [], []⟩
  | some m =>
    if m = "" then ⟨.badRequest, [], []⟩
    else
      match search_faq m w.faqRead with
      | .error _ => ⟨.serverError, [], []⟩
      | .ok r1 =>
        match w.historyWrite with
        | .error _ =>
          ⟨.serverError,
            [⟨session_id, m,
              chatAnswer3 w.aiPlain
                (chatAnswer2 m w.websiteText w.aiContextual (chatAnswer1 r1))⟩], []⟩
        | .ok _ =>
          ⟨.reply (chatAnswer3 w.aiPlain
              (chatAnswer2 m w.websiteText w.aiContextual (chatAnswer1 r1))),
            [⟨session_id, m,
              chatAnswer3 w.aiPlain
                (chatAnswer2 m w.websiteText w.aiContextual (chatAnswer1 r1))⟩],
            chatInserted w⟩

/-- Loop invariant of the fuzzy pass: after processing the `processed` prefix
of the row list, either no qualifying candidate has been seen
(`best_match = None`, `highest_overlap = 0`), or the accumulator holds the
answer of the first candidate attaining the running maximum ratio, that ratio
clears the threshold, and no processed candidate exceeds it. -/
def FuzzyInv (qw : Finset String) (processed : List Row) (acc : Option String × ℚ) : Prop :=
  (acc.1 = none →
    acc.2 = 0 ∧
    ∀ r ∈ processed, (rowTokens r).card ≠ 0 → ratioOf qw r < fuzzyThreshold) ∧
  (∀ a, acc.1 = some a →
    acc.2 ≥ fuzzyThreshold ∧
    ∃ l1 r l2, processed = l1 ++ r :: l2 ∧ (rowTokens r).card ≠ 0 ∧ a = r.answer ∧
      ratioOf qw r = acc.2 ∧
      (∀ r' ∈ l1, (rowTokens r').card ≠ 0 → ratioOf qw r' < acc.2) ∧
      (∀ r' ∈ processed, (rowTokens r').card ≠ 0 → ratioOf qw r' ≤ acc.2))

theorem mem_dropWhile_of_neg {α} {p : α → Bool} {c : α} {l : List α}
    (hc : c ∈ l) (hp : p c = false) : c ∈ l.dropWhile p := by
  induction l with
  | nil => simp at hc
  | cons a t ih =>
    rw [List.dropWhile_cons]
    cases ha : p a with
    | true =>
      rcases List.mem_cons.1 hc with rfl | h
      · rw [ha] at hp; cases hp
      · simpa using ih h
    | false => simpa using hc

theorem dropWhile_head_false {α} {p : α → Bool} :
    ∀ {l : List α} {a : α} {t : List α}, l.dropWhile p = a :: t → p a = false := by
  intro l
  induction l with
  | nil => intro a t h; simp at h
  | cons b u ih =>
    intro a t h
    rw [List.dropWhile_cons] at h
    cases hb : p b with
    | true => rw [hb] at h; simp at h; exact ih h
    | false =>
      rw [hb] at h
      simp at h
      rcases h with ⟨rfl, rfl⟩
      exact hb

theorem dropWhile_dropWhile {α} {p : α → Bool} (l : List α) :
    (l.dropWhile p).dropWhile p = l.dropWhile p := by
  cases h : l.dropWhile p with
  | nil => simp
  | cons a t =>
    rw [List.dropWhile_cons]
    simp [dropWhile_head_false h]

theorem dropWhile_append_singleton {α} {p : α → Bool} {a : α} (hp : p a = false)
    (m : List α) : (m ++ [a]).dropWhile p = m.dropWhile p ++ [a] := by
  induction m with
  | nil => simp [List.dropWhile_cons, hp]
  | cons c t ih =>
    rw [List.cons_append, List.dropWhile_cons, List.dropWhile_cons]
    cases hc : p c with
    | true => simpa using ih
    | false => simp

theorem mem_stripChars {c : Char} {l : List Char}
    (hc : c ∈ l) (hp : isSpaceChar c = false) : c ∈ stripChars l := by
  unfold stripChars
  exact List.mem_reverse.2
    (mem_dropWhile_of_neg (List.mem_reverse.2 (mem_dropWhile_of_neg hc hp)) hp)

theorem stripChars_subset {c : Char} {l : List Char} (h : c ∈ stripChars l) : c ∈ l := by
  unfold stripChars at h
  have h1 := List.mem_reverse.1 h
  have h2 := (List.dropWhile_sublist _).subset h1
  have h3 := List.mem_reverse.1 h2
  exact (List.dropWhile_sublist _).subset h3

theorem stripChars_idem (l : List Char) : stripChars (stripChars l) = stripChars l := by
  unfold stripChars
  cases h : l.dropWhile isSpaceChar with
  | nil => simp
  | cons a t =>
    have ha := dropWhile_head_false h
    rw [List.reverse_cons, dropWhile_append_singleton ha]
    simp only [List.reverse_append, List.reverse_singleton, List.singleton_append]
    rw [List.dropWhile_cons]
    simp only [ha, Bool.false_eq_true, if_false]
    simp only [List.reverse_cons, List.reverse_reverse]
    rw [dropWhile_append_singleton ha, dropWhile_dropWhile]
    simp only [List.reverse_append, List.reverse_singleton, List.singleton_append]

theorem pyStrip_idem (s : String) : pyStrip (pyStrip s) = pyStrip s :=
  congrArg String.mk (stripChars_idem s.data)

theorem pyStrip_clean (x : String) :
    pyStrip (clean_model_output x) = clean_model_output x := by
  unfold clean_model_output
  by_cases hx : x = ""
  · rw [if_pos hx]
    subst hx
    rfl
  · rw [if_neg hx]
    exact pyStrip_idem _

theorem pySplitAux_all_space :
    ∀ {ws : List Char}, (∀ c ∈ ws, isSpaceChar c = true) →
    ∀ cur, pySplitAux ws cur = if cur = [] then [] else [⟨cur.reverse⟩] := by
  intro ws
  induction ws with
  | nil => intro _ cur; rfl
  | cons c t ih =>
    intro h cur
    have hc : isSpaceChar c = true := h c (by simp)
    have ht : ∀ x ∈ t, isSpaceChar x = true := fun x hx => h x (by simp [hx])
    by_cases hcur : cur = []
    · simp [pySplitAux, hc, hcur, ih ht]
    · simp [pySplitAux, hc, hcur, ih ht]

theorem pySplitAux_append_space {ws : List Char}
    (hws : ∀ c ∈ ws, isSpaceChar c = true) :
    ∀ (m cur : List Char), pySplitAux (m ++ ws) cur = pySplitAux m cur := by
  intro m
  induction m with
  | nil =>
    intro cur
    rw [List.nil_append, pySplitAux_all_space hws cur]
    rfl
  | cons c t ih =>
    intro cur
    rw [List.cons_append]
    cases hc : isSpaceChar c with
    | true =>
      by_cases hcur : cur = [] <;> simp [pySplitAux, hc, hcur, ih]
    | false => simp [pySplitAux, hc, ih]

theorem pySplitAux_dropWhile :
    ∀ l : List Char, pySplitAux (l.dropWhile isSpaceChar) [] = pySplitAux l [] := by
  intro l
  induction l with
  | nil => rfl
  | cons c t ih =>
    rw [List.dropWhile_cons]
    cases hc : isSpaceChar c with
    | true => simpa [pySplitAux, hc] using ih
    | false => simp [pySplitAux, hc]

theorem pySplit_strip (s : String) : pySplit (pyStrip s) = pySplit s := by
  unfold pySplit pyStrip
  show pySplitAux (stripChars s.data) [] = pySplitAux s.data []
  unfold stripChars
  have hd : pySplitAux (s.data.dropWhile isSpaceChar) [] = pySplitAux s.data [] :=
    pySplitAux_dropWhile s.data
  set d := s.data.dropWhile isSpaceChar with hdef
  have hsplit : d.reverse.takeWhile isSpaceChar ++ d.reverse.dropWhile isSpaceChar
      = d.reverse := List.takeWhile_append_dropWhile isSpaceChar d.reverse
  have hd2 : d = (d.reverse.dropWhile isSpaceChar).reverse
      ++ (d.reverse.takeWhile isSpaceChar).reverse := by
    conv_lhs => rw [← List.reverse_reverse d, ← hsplit]
    rw [List.reverse_append]
  have hws : ∀ c ∈ (d.reverse.takeWhile isSpaceChar).reverse, isSpaceChar c = true :=
    fun c hc => List.mem_takeWhile_imp (List.mem_reverse.1 hc)
  calc pySplitAux (d.reverse.dropWhile isSpaceChar).reverse []
      = pySplitAux ((d.reverse.dropWhile isSpaceChar).reverse
          ++ (d.reverse.takeWhile isSpaceChar).reverse) [] :=
        (pySplitAux_append_space hws _ []).symm
    _ = pySplitAux d [] := by rw [← hd2]
    _ = pySplitAux s.data [] := hd

theorem tokenSet_strip (s : String) : tokenSet (pyStrip s) = tokenSet s := by
  unfold tokenSet
  rw [pySplit_strip]

theorem tokenSet_queryClean (q : String) :
    tokenSet (queryClean q) = tokenSet (pyCleanLower q) :=
  tokenSet_strip (pyCleanLower q)

theorem fuzzyThreshold_pos : (0:ℚ) < fuzzyThreshold := by decide

theorem fuzzyStep_preserves (qw : Finset String) {l : List Row} {acc : Option String × ℚ}
    (r : Row) (h : FuzzyInv qw l acc) : FuzzyInv qw (l ++ [r]) (fuzzyStep qw acc r) := by
  unfold FuzzyInv at h
  obtain ⟨hnone, hsome⟩ := h
  unfold FuzzyInv fuzzyStep
  by_cases hc : (rowTokens r).card = 0
  · rw [if_pos hc]
    constructor
    · intro h1
      obtain ⟨h2, h3⟩ := hnone h1
      refine ⟨h2, ?_⟩
      intro r' hr' hcard'
      rcases List.mem_append.1 hr' with hmem | hmem
      · exact h3 r' hmem hcard'
      · rw [List.mem_singleton] at hmem
        subst hmem
        exact absurd hc hcard'
    · intro a ha
      obtain ⟨h4, l1, rr, l2, hdec, hcard, hans, hratio, hfirst, hmax⟩ := hsome a ha
      refine ⟨h4, l1, rr, l2 ++ [r], by rw [hdec]; simp, hcard, hans, hratio, hfirst, ?_⟩
      intro r' hr' hcard'
      rcases List.mem_append.1 hr' with hmem | hmem
      · exact hmax r' hmem hcard'
      · rw [List.mem_singleton] at hmem
        subst hmem
        exact absurd hc hcard'
  · rw [if_neg hc]
    by_cases hcond : ratioOf qw r > acc.2 ∧ ratioOf qw r ≥ fuzzyThreshold
    · rw [if_pos hcond]
      constructor
      · intro h1
        simp at h1
      · intro a ha
        have ha' : r.answer = a := by simpa using ha
        subst ha'
        refine ⟨hcond.2, l, r, [], by simp, hc, rfl, rfl, ?_, ?_⟩
        · intro r' hr' hcard'
          cases hacc : acc.1 with
          | none =>
            obtain ⟨h2, h3⟩ := hnone hacc
            exact lt_of_lt_of_le (h3 r' hr' hcard') hcond.2
          | some a0 =>
            obtain ⟨h4, l1, rr, l2, hdec, hcard2, hans, hratio, hfirst, hmax⟩ := hsome a0 hacc
            exact lt_of_le_of_lt (hmax r' hr' hcard') hcond.1
        · intro r' hr' hcard'
          rcases List.mem_append.1 hr' with hmem | hmem
          · cases hacc : acc.1 with
            | none =>
              obtain ⟨h2, h3⟩ := hnone hacc
              exact le_of_lt (lt_of_lt_of_le (h3 r' hmem hcard') hcond.2)
            | some a0 =>
              obtain ⟨h4, l1, rr, l2, hdec, hcard2, hans, hratio, hfirst, hmax⟩ := hsome a0 hacc
              exact le_of_lt (lt_of_le_of_lt (hmax r' hmem hcard') hcond.1)
          · rw [List.mem_singleton] at hmem
            subst hmem
            exact le_refl _
    · rw [if_neg hcond]
      constructor
      · intro h1
        obtain ⟨h2, h3⟩ := hnone h1
        refine ⟨h2, ?_⟩
        intro r' hr' hcard'
        rcases List.mem_append.1 hr' with hmem | hmem
        · exact h3 r' hmem hcard'
        · rw [List.mem_singleton] at hmem
          subst hmem
          by_contra hge
          push_neg at hge
          exact hcond ⟨by rw [h2]; exact lt_of_lt_of_le fuzzyThreshold_pos hge, hge⟩
      · intro a ha
        obtain ⟨h4, l1, rr, l2, hdec, hcard2, hans, hratio, hfirst, hmax⟩ := hsome a ha
        refine ⟨h4, l1, rr, l2 ++ [r], by rw [hdec]; simp, hcard2, hans, hratio, hfirst, ?_⟩
        intro r' hr' hcard'
        rcases List.mem_append.1 hr' with hmem | hmem
        · exact hmax r' hmem hcard'
        · rw [List.mem_singleton] at hmem
          subst hmem
          by_contra hgt
          push_neg at hgt
          exact hcond ⟨hgt, le_trans h4 (le_of_lt hgt)⟩

theorem fuzzy_fold_inv (qw : Finset String) (rows : List Row) :
    FuzzyInv qw rows (rows.foldl (fuzzyStep qw) (none, 0)) := by
  induction rows using List.reverseRecOn with
  | nil =>
    constructor
    · intro _
      exact ⟨rfl, by simp⟩
    · intro a ha
      simp at ha
  | append_singleton l r ih =>
    rw [List.foldl_append]
    simpa using fuzzyStep_preserves qw r ih

theorem fuzzyBest_some_spec {qw : Finset String} {rows : List Row} {a : String}
    (h : fuzzyBest qw rows = some a) :
    ∃ l1 r l2, rows = l1 ++ r :: l2 ∧ (rowTokens r).card ≠ 0 ∧ a = r.answer ∧
      ratioOf qw r ≥ fuzzyThreshold ∧
      (∀ r' ∈ l1, (rowTokens r').card ≠ 0 → ratioOf qw r' < ratioOf qw r) ∧
      (∀ r' ∈ rows, (rowTokens r').card ≠ 0 → ratioOf qw r' ≤ ratioOf qw r) := by
  have inv := fuzzy_fold_inv qw rows
  unfold FuzzyInv at inv
  obtain ⟨-, hsome⟩ := inv
  obtain ⟨h4, l1, r, l2, hdec, hcard, hans, hratio, hfirst, hmax⟩ := hsome a h
  rw [← hratio] at h4 hfirst hmax
  exact ⟨l1, r, l2, hdec, hcard, hans, h4, hfirst, hmax⟩

theorem fuzzyBest_exists {qw : Finset String} {rows : List Row} {r : Row}
    (hr : r ∈ rows) (hcard : (rowTokens r).card ≠ 0)
    (hthr : ratioOf qw r ≥ fuzzyThreshold) : ∃ a, fuzzyBest qw rows = some a := by
  cases hb : fuzzyBest qw rows with
  | some a => exact ⟨a, rfl⟩
  | none =>
    have inv := fuzzy_fold_inv qw rows
    unfold FuzzyInv at inv
    obtain ⟨hnone, -⟩ := inv
    obtain ⟨-, h3⟩ := hnone hb
    exact absurd hthr (not_le.2 (h3 r hr hcard))

theorem foldl_fuzzyStep_filter (qw : Finset String) :
    ∀ (rows : List Row) (acc : Option String × ℚ),
      rows.foldl (fuzzyStep qw) acc
        = (rows.filter (fun r => (rowTokens r).card != 0)).foldl (fuzzyStep qw) acc := by
  intro rows
  induction rows with
  | nil => intro _; rfl
  | cons r t ih =>
    intro acc
    by_cases hc : (rowTokens r).card = 0
    · have hstep : fuzzyStep qw acc r = acc := by
        unfold fuzzyStep
        rw [if_pos hc]
      rw [List.foldl_cons, hstep, List.filter_cons]
      simp only [hc, bne_self_eq_false, Bool.false_eq_true, if_false]
      exact ih acc
    · rw [List.foldl_cons, List.filter_cons]
      have : ((rowTokens r).card != 0) = true := by simpa using hc
      rw [this, if_pos rfl, List.foldl_cons]
      exact ih (fuzzyStep qw acc r)

theorem fuzzyBest_skip_empty (qw : Finset String) (rows : List Row) :
    fuzzyBest qw rows = fuzzyBest qw (rows.filter (fun r => (rowTokens r).card != 0)) := by
  unfold fuzzyBest
  rw [foldl_fuzzyStep_filter]

theorem search_faq_ok_mem {q : String} {rows : List Row} {a : String}
    (h : search_faq_ok q rows = some a) : ∃ r ∈ rows, a = r.answer := by
  unfold search_faq_ok at h
  by_cases h1 : queryClean q = ""
  · rw [if_pos h1] at h
    cases h
  · rw [if_neg h1] at h
    by_cases h2 : rows = []
    · rw [if_pos h2] at h
      cases h
    · rw [if_neg h2] at h
      cases hf : rows.find? (exact_hit (queryClean q)) with
      | some r =>
        rw [hf] at h
        have hr : r ∈ rows := List.mem_of_find?_eq_some hf
        simp only [Option.some.injEq] at h
        exact ⟨r, hr, h.symm⟩
      | none =>
        rw [hf] at h
        obtain ⟨l1, r, l2, hdec, -, hans, -, -, -⟩ := fuzzyBest_some_spec h
        exact ⟨r, by rw [hdec]; simp, hans⟩

theorem ratioOf_eq_div (qw : Finset String) (r : Row) :
    ratioOf qw r = ((qw ∩ rowTokens r).card : ℚ) / ((rowTokens r).card : ℚ) := by
  unfold ratioOf
  rw [Rat.divInt_eq_div, Int.cast_natCast, Int.cast_natCast]

theorem ratioOf_self {qw : Finset String} {r : Row} (h : rowTokens r = qw)
    (hc : (rowTokens r).card ≠ 0) : ratioOf qw r = 1 := by
  unfold ratioOf
  rw [h] at hc
  rw [h, Finset.inter_self]
  exact Rat.divInt_self' (by exact_mod_cast hc)

theorem isUpper_of_range {c : Char} (h1 : 65 ≤ c.toNat) (h2 : c.toNat ≤ 90) :
    c.isUpper = true := by
  simp only [Char.isUpper, Bool.and_eq_true, decide_eq_true_eq]
  have e : c.val.toBitVec.toNat = c.toNat := rfl
  constructor
  · show (65:UInt32) ≤ c.val
    rw [UInt32.le_def, BitVec.le_def]
    have e65 : (UInt32.toBitVec 65).toNat = 65 := rfl
    omega
  · show c.val ≤ (90:UInt32)
    rw [UInt32.le_def, BitVec.le_def]
    have e90 : (UInt32.toBitVec 90).toNat = 90 := rfl
    omega

theorem toLower_eq_self_of_not_word {c : Char} (h : isWordChar c = false) :
    c.toLower = c := by
  have halnum : c.isAlphanum = false := by
    unfold isWordChar at h
    rcases Bool.or_eq_false_iff.1 h with ⟨h', -⟩
    rcases Bool.or_eq_false_iff.1 h' with ⟨h1, -⟩
    exact h1
  have hup : c.isUpper = false := by
    unfold Char.isAlphanum Char.isAlpha at halnum
    rcases Bool.or_eq_false_iff.1 halnum with ⟨ha, -⟩
    rcases Bool.or_eq_false_iff.1 ha with ⟨h1, -⟩
    exact h1
  unfold Char.toLower
  rw [if_neg]
  intro hcond
  obtain ⟨h1, h2⟩ := hcond
  rw [isUpper_of_range h1 h2] at hup
  cases hup

theorem queryClean_kept {s : String} {c : Char} (h : c ∈ (queryClean s).data) :
    isKeptChar c = true := by
  have h2 : c ∈ ((pyCleanLower s).data) := stripChars_subset h
  unfold pyCleanLower at h2
  exact (List.mem_filter.1 h2).2

theorem exact_hit_false_of_bad_char {question : String} {c : Char}
    (hc : c ∈ question.data) (hw : isWordChar c = false) (hs : isSpaceChar c = false) :
    ∀ (query a : String), exact_hit (queryClean query) ⟨question, a⟩ = false := by
  intro query a
  cases hb : exact_hit (queryClean query) ⟨question, a⟩ with
  | false => rfl
  | true =>
    exfalso
    have heq : pyLower (pyStrip question) = queryClean query := by
      unfold exact_hit at hb
      exact eq_of_beq hb
    have hmem1 : c ∈ stripChars question.data := mem_stripChars hc hs
    have hmem2 : Char.toLower c ∈ (pyLower (pyStrip question)).data :=
      List.mem_map_of_mem Char.toLower hmem1
    rw [toLower_eq_self_of_not_word hw] at hmem2
    rw [heq] at hmem2
    have hkept := queryClean_kept hmem2
    unfold isKeptChar at hkept
    rcases Bool.or_eq_true_iff.1 hkept with h1 | h1
    · rw [hw] at h1
      cases h1
    · rw [hs] at h1
      cases h1

theorem tokenSet_empty : tokenSet "" = ∅ := rfl

theorem search_faq_ok_read (q : String) (rows : List Row) :
    search_faq q (.ok rows) = .ok (search_faq_ok q rows) := by
  unfold search_faq search_faq_ok
  by_cases h : queryClean q = "" <;> simp [h]

theorem apology_ne_empty : apology ≠ "" := by decide

theorem pyStrip_apology : pyStrip apology = apology := by decide

theorem one_ge_threshold : fuzzyThreshold ≤ (1:ℚ) := by decide

theorem finalFallback_nonempty (aiPlain : Except Unit (Option String)) :
    finalFallback aiPlain ≠ "" ∧
    pyStrip (finalFallback aiPlain) = finalFallback aiPlain := by
  unfold finalFallback
  by_cases h : clean_model_output (ai_fallback aiPlain) = ""
  · rw [if_pos h]
    exact ⟨apology_ne_empty, pyStrip_apology⟩
  · rw [if_neg h]
    exact ⟨h, pyStrip_clean _⟩

theorem probe_finds_inserted {q a : String} {store : List Row}
    (htok : tokenSet (queryClean q) ≠ ∅)
    (hans : ∀ r ∈ store, r.answer ≠ "") (ha : a ≠ "") :
    ∃ x, search_faq_ok q (store ++ [⟨q, a⟩]) = some x ∧ x ≠ "" := by
  have hqc : queryClean q ≠ "" := by
    intro h
    rw [h, tokenSet_empty] at htok
    exact htok rfl
  have hne : store ++ [(⟨q, a⟩ : Row)] ≠ [] := by simp
  have hansAll : ∀ r ∈ store ++ [(⟨q, a⟩ : Row)], r.answer ≠ "" := by
    intro r hr
    rcases List.mem_append.1 hr with h | h
    · exact hans r h
    · rw [List.mem_singleton] at h
      subst h
      exact ha
  unfold search_faq_ok
  rw [if_neg hqc, if_neg hne]
  cases hf : (store ++ [(⟨q, a⟩ : Row)]).find? (exact_hit (queryClean q)) with
  | some r =>
    exact ⟨r.answer, rfl, hansAll r (List.mem_of_find?_eq_some hf)⟩
  | none =>
    have hrowTok : rowTokens ⟨q, a⟩ = tokenSet (queryClean q) := (tokenSet_queryClean q).symm
    have hcard : (rowTokens ⟨q, a⟩).card ≠ 0 := by
      rw [hrowTok]
      intro h0
      exact htok (Finset.card_eq_zero.1 h0)
    have hratio : ratioOf (tokenSet (queryClean q)) ⟨q, a⟩ = 1 := ratioOf_self hrowTok hcard
    have hthr : ratioOf (tokenSet (queryClean q)) ⟨q, a⟩ ≥ fuzzyThreshold := by
      rw [hratio]
      exact one_ge_threshold
    have hmem : (⟨q, a⟩ : Row) ∈ store ++ [(⟨q, a⟩ : Row)] := by simp
    obtain ⟨x, hx⟩ := fuzzyBest_exists hmem hcard hthr
    refine ⟨x, hx, ?_⟩
    obtain ⟨l1, r, l2, hdec, -, hxans, -, -, -⟩ := fuzzyBest_some_spec hx
    have hrmem : r ∈ store ++ [(⟨q, a⟩ : Row)] := by
      rw [hdec]
      simp
    rw [hxans]
    exact hansAll r hrmem

theorem chatAnswer3_nonempty (aiPlain : Except Unit (Option String)) (a2 : Option String) :
    chatAnswer3 aiPlain a2 ≠ "" ∧ pyStrip (chatAnswer3 aiPlain a2) ≠ "" := by
  cases a2 with
  | none =>
    obtain ⟨h1, h2⟩ := finalFallback_nonempty aiPlain
    simp only [chatAnswer3]
    exact ⟨h1, by rw [h2]; exact h1⟩
  | some s =>
    simp only [chatAnswer3]
    by_cases hs : s = "" ∨ pyStrip s = ""
    · rw [if_pos hs]
      obtain ⟨h1, h2⟩ := finalFallback_nonempty aiPlain
      exact ⟨h1, by rw [h2]; exact h1⟩
    · rw [if_neg hs]
      push_neg at hs
      exact hs

theorem chat_ok_hist_ok {m : String} (sid : Option String) {w : ChatWorld} {rows : List Row}
    (hm : m ≠ "") (hread : w.faqRead = .ok rows) (hhist : w.historyWrite = .ok ()) :
    chat (some m) sid w =
      ⟨.reply (chatAnswer m rows w), [⟨sid, m, chatAnswer m rows w⟩], chatInserted w⟩ := by
  unfold chat chatAnswer
  simp only [hread, search_faq_ok_read, hhist, if_neg hm]

theorem chat_ok_hist_err {m : String} (sid : Option String) {w : ChatWorld} {rows : List Row}
    {e : Unit} (hm : m ≠ "") (hread : w.faqRead = .ok rows)
    (hhist : w.historyWrite = .error e) :
    chat (some m) sid w = ⟨.serverError, [⟨sid, m, chatAnswer m rows w⟩], []⟩ := by
  unfold chat chatAnswer
  simp only [hread, search_faq_ok_read, hhist, if_neg hm]

theorem fuzzyThreshold_eq : fuzzyThreshold = 7/10 := by
  unfold fuzzyThreshold
  rw [Rat.divInt_eq_div]
  norm_num

theorem findBrace_none {l : List Char} (h : ∀ c ∈ l, c ≠ braceL) : findBrace l = none := by
  induction l with
  | nil => rfl
  | cons c t ih =>
    unfold findBrace
    have hc : (c == braceL) = false := beq_eq_false_iff_ne.2 (h c (by simp))
    simp only [hc, Bool.false_eq_true, if_false]
    exact ih (fun c' hc' => h c' (by simp [hc']))

/-- C4: whenever some stored question, trimmed and lower-cased, equals the
normalized query, `search_faq` returns the answer of the first such row via
the exact pass — before any fuzzy scoring and regardless of every other
candidate's overlap ratio (the conclusion is determined by `find?` alone). -/
theorem c4_exact_first {query : String} {rows : List Row} {r : Row}
    (hq : queryClean query ≠ "")
    (hfind : rows.find? (exact_hit (queryClean query)) = some r) :
    search_faq query (.ok rows) = .ok (some r.answer) := by
  have hne : rows ≠ [] := by
    intro h
    rw [h] at hfind
    cases hfind
  rw [search_faq_ok_read]
  unfold search_faq_ok
  rw [if_neg hq, if_neg hne]
  simp only [hfind]

/-- Witness for C4 at a concrete store: the first exact hit wins even though
a later candidate is also an exact hit and has a perfect overlap ratio. -/
theorem c4_exact_first_witness :
    search_faq "Open hours?" (.ok [⟨"open hours  ", "A1"⟩, ⟨"open hours", "A2"⟩])
      = .ok (some "A1") :=
  @c4_exact_first "Open hours?" [⟨"open hours  ", "A1"⟩, ⟨"open hours", "A2"⟩]
    ⟨"open hours  ", "A1"⟩ (by decide) (by decide)

/-- C5: in the fuzzy pass, empty-token candidates are skipped (filtering them
out does not change the result); any returned match is the answer of a
candidate whose ratio `|queryTokens ∩ candidateTokens| / |candidateTokens|`
is at least `0.70`, is maximal among all non-empty candidates, and strictly
exceeds every earlier candidate's ratio (ties keep the first seen); and the
candidate-normalized ratio of stored question `"open hours"` against query
`"what are your open hours today"` is `1`. -/
theorem c5_fuzzy_pass (qw : Finset String) (rows : List Row) :
    fuzzyBest qw rows = fuzzyBest qw (rows.filter (fun r => (rowTokens r).card != 0)) ∧
    (∀ a, fuzzyBest qw rows = some a →
      ∃ l1 r l2, rows = l1 ++ r :: l2 ∧ (rowTokens r).card ≠ 0 ∧ a = r.answer ∧
        ratioOf qw r ≥ 7/10 ∧
        (∀ r' ∈ rows, (rowTokens r').card ≠ 0 → ratioOf qw r' ≤ ratioOf qw r) ∧
        (∀ r' ∈ l1, (rowTokens r').card ≠ 0 → ratioOf qw r' < ratioOf qw r)) ∧
    ratioOf (tokenSet (queryClean "what are your open hours today")) ⟨"open hours", "8-5"⟩ = 1 := by
  refine ⟨fuzzyBest_skip_empty qw rows, ?_, by decide⟩
  intro a h
  obtain ⟨l1, r, l2, hdec, hcard, hans, hthr, hfirst, hmax⟩ := fuzzyBest_some_spec h
  rw [fuzzyThreshold_eq] at hthr
  exact ⟨l1, r, l2, hdec, hcard, hans, hthr, hmax, hfirst⟩

/-- Witness for C5 at a concrete candidate list: the fuzzy pass returns the
second candidate, and the characterization instantiates for it. -/
theorem c5_fuzzy_pass_witness :
    ∃ l1 r l2,
      ([⟨"pricing plans", "P"⟩, ⟨"open hours", "8-5"⟩] : List Row) = l1 ++ r :: l2 ∧
      (rowTokens r).card ≠ 0 ∧ "8-5" = r.answer ∧
      ratioOf (tokenSet "your open hours today") r ≥ 7/10 ∧
      (∀ r' ∈ ([⟨"pricing plans", "P"⟩, ⟨"open hours", "8-5"⟩] : List Row),
        (rowTokens r').card ≠ 0 →
        ratioOf (tokenSet "your open hours today") r' ≤ ratioOf (tokenSet "your open hours today") r) ∧
      (∀ r' ∈ l1, (rowTokens r').card ≠ 0 →
        ratioOf (tokenSet "your open hours today") r' < ratioOf (tokenSet "your open hours today") r) :=
  (c5_fuzzy_pass (tokenSet "your open hours today")
    [⟨"pricing plans", "P"⟩, ⟨"open hours", "8-5"⟩]).2.1 "8-5" (by decide)

/-- C10: the exact-match comparison is asymmetric — the probe query is
punctuation-stripped while the stored question is only trimmed and
lower-cased; hence a stored question containing a non-word, non-whitespace
character is never returned by the exact pass for any query, and a store of
such a record is consulted only through the fuzzy pass. -/
theorem c10_exact_asymmetry {question : String}
    (h : ∃ c ∈ question.data, isWordChar c = false ∧ isSpaceChar c = false) :
    (∀ query a : String, exact_hit (queryClean query) ⟨question, a⟩ = false) ∧
    (∀ query a : String, queryClean query ≠ "" →
      search_faq_ok query [⟨question, a⟩]
        = fuzzyBest (tokenSet (queryClean query)) [⟨question, a⟩]) := by
  obtain ⟨c, hc, hw, hs⟩ := h
  have hfalse := exact_hit_false_of_bad_char hc hw hs
  refine ⟨hfalse, ?_⟩
  intro query a hq
  unfold search_faq_ok
  rw [if_neg hq, if_neg (by simp : ([⟨question, a⟩] : List Row) ≠ [])]
  have hnone : ([⟨question, a⟩] : List Row).find? (exact_hit (queryClean query)) = none := by
    rw [List.find?_cons_of_neg, List.find?_nil]
    rw [hfalse query a]
    simp
  simp only [hnone]

/-- Witness for C10: a stored question carrying a trailing question mark is
invisible to the exact pass and is matched only through the fuzzy pass. -/
theorem c10_exact_asymmetry_witness :
    exact_hit (queryClean "open hours") ⟨"open hours?", "8-5"⟩ = false ∧
    search_faq_ok "open hours" [⟨"open hours?", "8-5"⟩]
      = fuzzyBest (tokenSet (queryClean "open hours")) [⟨"open hours?", "8-5"⟩] :=
  ⟨(c10_exact_asymmetry (by decide)).1 "open hours" "8-5",
   (c10_exact_asymmetry (by decide)).2 "open hours" "8-5" (by decide)⟩

/-- C2 counterexample: a failing store read during matching does not yield
"no candidates" — `search_faq` propagates the exception and the chat request
aborts with a server error instead of degrading to the completion tier
(which here would have answered `"AI TIER ANSWER"`). -/
theorem c2_read_failure_cex :
    search_faq "when do you open" (.error ()) = .error () ∧
    (chat (some "when do you open") (some "s1")
        ⟨.error (), none, .ok none, .ok (some "AI TIER ANSWER"), .ok (),
         .error (), .ok [], .ok ()⟩).result = .serverError := by
  exact ⟨rfl, rfl⟩

/-- C2 amended: a store read failure during matching is not caught —
`search_faq` re-raises it (for any query whose cleaned form is non-empty, the
only case in which the read happens), and the chat request aborts with a
server error rather than degrading to the next tier. -/
theorem c2_read_failure_raises {q : String} (hq : queryClean q ≠ "") :
    search_faq q (.error ()) = .error () ∧
    ∀ (sid : Option String) (w : ChatWorld), w.faqRead = .error () →
      (chat (some q) sid w).result = .serverError := by
  have h1 : search_faq q (.error ()) = .error () := by
    unfold search_faq
    rw [if_neg hq]
  refine ⟨h1, ?_⟩
  intro sid w hread
  have hm : q ≠ "" := by
    intro h
    apply hq
    rw [h]
    rfl
  unfold chat
  simp only [hread, if_neg hm, h1]

/-- Witness for C2 amended at a concrete query and world. -/
theorem c2_read_failure_raises_witness :
    search_faq "hello" (.error ()) = .error () ∧
    (chat (some "hello") (some "s9")
        ⟨.error (), none, .ok none, .ok none, .ok (), .error (), .ok [], .ok ()⟩).result
      = .serverError :=
  ⟨(c2_read_failure_raises (by decide)).1,
   (c2_read_failure_raises (by decide)).2 (some "s9")
     ⟨.error (), none, .ok none, .ok none, .ok (), .error (), .ok [], .ok ()⟩ rfl⟩

/-- C1 counterexample: with a non-empty message and every completion outcome
benign, a failing history append (a store outcome) surfaces a server error to
the caller instead of the computed answer. -/
theorem c1_error_surfaces_cex :
    (chat (some "xin chao") (some "s1")
        ⟨.ok [], none, .ok none, .ok (some "BOT REPLY"), .error (),
         .error (), .ok [], .ok ()⟩).result = .serverError := by decide

/-- C1 amended: a missing or empty message is rejected as a bad request
before the pipeline runs; and whenever the FAQ read and the history append
succeed, the chat operation replies with a non-empty, non-whitespace-only
answer for every completion-service, context-fetch and learning outcome.
(A failing FAQ read or history append instead aborts the request — see the
counterexample.) -/
theorem c1_resolve_nonempty {m : String} (hm : m ≠ "") (sid : Option String)
    (w : ChatWorld) (rows : List Row) (hread : w.faqRead = .ok rows)
    (hhist : w.historyWrite = .ok ()) :
    (chat none sid w).result = .badRequest ∧
    (chat none sid w).historyAppends = [] ∧
    (chat (some "") sid w).result = .badRequest ∧
    ∃ ans, (chat (some m) sid w).result = .reply ans ∧ ans ≠ "" ∧ pyStrip ans ≠ "" := by
  refine ⟨rfl, rfl, rfl, chatAnswer m rows w, ?_, ?_, ?_⟩
  · rw [chat_ok_hist_ok sid hm hread hhist]
  · exact (chatAnswer3_nonempty w.aiPlain _).1
  · exact (chatAnswer3_nonempty w.aiPlain _).2

/-- Witness for C1 amended at a concrete world where every completion call
fails: the reply is the sentinel apology, non-empty and non-blank. -/
theorem c1_resolve_nonempty_witness :
    (chat none (some "s5")
        ⟨.ok [], none, .error (), .error (), .ok (), .error (), .ok [], .ok ()⟩).result
      = .badRequest ∧
    (chat none (some "s5")
        ⟨.ok [], none, .error (), .error (), .ok (), .error (), .ok [], .ok ()⟩).historyAppends
      = [] ∧
    (chat (some "") (some "s5")
        ⟨.ok [], none, .error (), .error (), .ok (), .error (), .ok [], .ok ()⟩).result
      = .badRequest ∧
    ∃ ans,
      (chat (some "hi there") (some "s5")
          ⟨.ok [], none, .error (), .error (), .ok (), .error (), .ok [], .ok ()⟩).result
        = .reply ans ∧ ans ≠ "" ∧ pyStrip ans ≠ "" :=
  c1_resolve_nonempty (by decide) (some "s5")
    ⟨.ok [], none, .error (), .error (), .ok (), .error (), .ok [], .ok ()⟩ [] rfl rfl

/-- C6 counterexample: a failure of the history append itself is not ignored:
the request aborts with a server error and the computed answer is lost. -/
theorem c6_history_failure_cex :
    chat (some "chao ban") (some "s2")
        ⟨.ok [], none, .ok none, .ok (some "BOT REPLY"), .error (),
         .error (), .ok [], .ok ()⟩
      = ⟨.serverError, [⟨some "s2", "chao ban", "BOT REPLY"⟩], []⟩ := by decide

/-- C6 amended: for every resolved exchange the history append is attempted
exactly once with the (session, query, final answer) triple, whichever tier
produced the answer and whatever the learning outcomes are; when the append
succeeds the answer is returned, but when the append itself fails the request
aborts with a server error instead of being logged and ignored. -/
theorem c6_history_once {m : String} (hm : m ≠ "") (sid : Option String)
    (w : ChatWorld) (rows : List Row) (hread : w.faqRead = .ok rows) :
    ∃ ans, (chat (some m) sid w).historyAppends = [⟨sid, m, ans⟩] ∧
      (w.historyWrite = .ok () → (chat (some m) sid w).result = .reply ans) ∧
      (∀ e, w.historyWrite = .error e → (chat (some m) sid w).result = .serverError) := by
  refine ⟨chatAnswer m rows w, ?_, ?_, ?_⟩
  · cases hw : w.historyWrite with
    | ok u =>
      cases u
      rw [chat_ok_hist_ok sid hm hread hw]
    | error e => rw [chat_ok_hist_err sid hm hread hw]
  · intro hw
    rw [chat_ok_hist_ok sid hm hread hw]
  · intro e hw
    rw [chat_ok_hist_err sid hm hread hw]

/-- Witness for C6 amended at a concrete world with a successful append. -/
theorem c6_history_once_witness :
    ∃ ans,
      (chat (some "hi all") (some "s6")
          ⟨.ok [], none, .ok none, .ok (some "B"), .ok (), .error (), .ok [], .ok ()⟩).historyAppends
        = [⟨some "s6", "hi all", ans⟩] ∧
      ((⟨.ok [], none, .ok none, .ok (some "B"), .ok (), .error (), .ok [], .ok ()⟩ : ChatWorld).historyWrite = .ok () →
        (chat (some "hi all") (some "s6")
            ⟨.ok [], none, .ok none, .ok (some "B"), .ok (), .error (), .ok [], .ok ()⟩).result
          = .reply ans) ∧
      (∀ e, (⟨.ok [], none, .ok none, .ok (some "B"), .ok (), .error (), .ok [], .ok ()⟩ : ChatWorld).historyWrite = .error e →
        (chat (some "hi all") (some "s6")
            ⟨.ok [], none, .ok none, .ok (some "B"), .ok (), .error (), .ok [], .ok ()⟩).result
          = .serverError) :=
  c6_history_once (by decide) (some "s6")
    ⟨.ok [], none, .ok none, .ok (some "B"), .ok (), .error (), .ok [], .ok ()⟩ [] rfl

/-- C3 counterexample: the contextual tier returns the fixed apology sentinel
(the completion call failed), yet the pipeline does not proceed to the
generative tier — which here would have answered `"GENERATIVE ANSWER"` — and
adopts the sentinel as the final reply. -/
theorem c3_sentinel_adopted_cex :
    (chat (some "library") (some "s3")
        ⟨.ok [], some "The library opens at 8am.", .error (),
         .ok (some "GENERATIVE ANSWER"), .ok (), .error (), .ok [], .ok ()⟩).result
      = .reply apology ∧ apology ≠ "GENERATIVE ANSWER" := by
  exact ⟨by decide, by decide⟩

/-- C3 amended: each tier is entered only when the previous produced a falsy
or whitespace-only answer; the apology sentinel is a non-empty string and
therefore counts as a usable answer — when the contextual tier produces any
non-empty cleaned completion (the sentinel included), it becomes the final
reply and the generative tier is never consulted (the conclusion holds for
every `aiPlain` outcome). -/
theorem c3_sentinel_usable {m : String} {w : ChatWorld} {rows : List Row} {wt : String}
    (hm : m ≠ "") (hread : w.faqRead = .ok rows)
    (hnone : search_faq_ok m rows = none)
    (hrel : is_website_related m = true)
    (hwt : w.websiteText = some wt) (hwtne : wt ≠ "")
    (hhist : w.historyWrite = .ok ())
    (hs : clean_model_output (ai_fallback w.aiContextual) ≠ "")
    (sid : Option String) :
    (chat (some m) sid w).result
      = .reply (clean_model_output (ai_fallback w.aiContextual)) := by
  rw [chat_ok_hist_ok sid hm hread hhist]
  show ChatResult.reply (chatAnswer m rows w) = _
  unfold chatAnswer
  rw [hnone]
  have ha1 : chatAnswer1 none = none := rfl
  rw [ha1]
  have ha2 : chatAnswer2 m w.websiteText w.aiContextual none
      = some (clean_model_output (ai_fallback w.aiContextual)) := by
    unfold chatAnswer2
    rw [if_pos ⟨by simp [truthyStr], hrel⟩, hwt]
    simp only [if_neg hwtne]
  rw [ha2]
  have hps : pyStrip (clean_model_output (ai_fallback w.aiContextual))
      = clean_model_output (ai_fallback w.aiContextual) := pyStrip_clean _
  have ha3 : chatAnswer3 w.aiPlain (some (clean_model_output (ai_fallback w.aiContextual)))
      = clean_model_output (ai_fallback w.aiContextual) := by
    simp only [chatAnswer3]
    rw [if_neg]
    intro hcase
    rcases hcase with h | h
    · exact hs h
    · rw [hps] at h
      exact hs h
  rw [ha3]

/-- Witness for C3 amended: the contextual completion fails, its cleaned
result is the sentinel, and the reply is that sentinel even though the
generative tier would have produced a different answer. -/
theorem c3_sentinel_usable_witness :
    (chat (some "website info") (some "s7")
        ⟨.ok [], some "some page text", .error (), .ok (some "GEN2"), .ok (),
         .error (), .ok [], .ok ()⟩).result
      = .reply (clean_model_output (ai_fallback (.error ()))) :=
  c3_sentinel_usable (by decide) rfl (by decide) (by decide) rfl (by decide) rfl
    (by decide) (some "s7")

/-- C9: the self-learning path cannot influence what the requester sees —
two worlds agreeing on the store read, website fetch, both completion calls
and the history write (but arbitrary in the learning-path outcomes: judgment
call, probe read, insert) produce the same HTTP result and the same history
appends, for every message. -/
theorem c9_learning_isolated (msg sid : Option String) (w1 w2 : ChatWorld)
    (h1 : w1.faqRead = w2.faqRead) (h2 : w1.websiteText = w2.websiteText)
    (h3 : w1.aiContextual = w2.aiContextual) (h4 : w1.aiPlain = w2.aiPlain)
    (h5 : w1.historyWrite = w2.historyWrite) :
    (chat msg sid w1).result = (chat msg sid w2).result ∧
    (chat msg sid w1).historyAppends = (chat msg sid w2).historyAppends := by
  cases msg with
  | none => exact ⟨rfl, rfl⟩
  | some m =>
    by_cases hm : m = ""
    · subst hm
      exact ⟨rfl, rfl⟩
    · unfold chat
      simp only [if_neg hm, h1, h2, h3, h4, h5]
      cases hsf : search_faq m w2.faqRead with
      | error e => simp [hsf]
      | ok r1 =>
        simp only [hsf]
        cases hw : w2.historyWrite with
        | error e => simp [hw]
        | ok u => simp [hw]

/-- Witness for C9: two concrete worlds differing in every learning-path
outcome produce the same result and history. -/
theorem c9_learning_isolated_witness :
    (chat (some "hi") (some "s8")
        ⟨.ok [], none, .ok none, .ok (some "B"), .ok (),
         .ok ⟨true, "Q?", "A."⟩, .ok [], .ok ()⟩).result
      = (chat (some "hi") (some "s8")
        ⟨.ok [], none, .ok none, .ok (some "B"), .ok (),
         .error (), .error (), .error ()⟩).result ∧
    (chat (some "hi") (some "s8")
        ⟨.ok [], none, .ok none, .ok (some "B"), .ok (),
         .ok ⟨true, "Q?", "A."⟩, .ok [], .ok ()⟩).historyAppends
      = (chat (some "hi") (some "s8")
        ⟨.ok [], none, .ok none, .ok (some "B"), .ok (),
         .error (), .error (), .error ()⟩).historyAppends :=
  c9_learning_isolated (some "hi") (some "s8")
    ⟨.ok [], none, .ok none, .ok (some "B"), .ok (), .ok ⟨true, "Q?", "A."⟩, .ok [], .ok ()⟩
    ⟨.ok [], none, .ok none, .ok (some "B"), .ok (), .error (), .error (), .error ()⟩
    rfl rfl rfl rfl rfl

/-- C7: the structured extractor is total by construction and behaves as
specified: on the sample reply with commentary around the JSON object it
yields exactly the record with `is_new_faq = true`, `question = "Q"`,
`answer = "A"` (both at the raw parse and after the field coalescing of
`ai_generate_new_faq`); on any text containing no opening brace it yields
`None`; and the single repair pass turns a single-quoted payload that
`json.loads` rejects into a successful parse of that same substring. -/
theorem c7_extractor :
    try_load_json_from_text
        "Sure! Here you go: \x7b\"is_new_faq\": true, \"question\": \"Q\", \"answer\": \"A\"\x7d Thanks."
      = some (JsonVal.obj
          [("is_new_faq", .bool true), ("question", .str "Q"), ("answer", .str "A")]) ∧
    coalesce_faq (JsonVal.obj
        [("is_new_faq", .bool true), ("question", .str "Q"), ("answer", .str "A")])
      = .ok ⟨true, "Q", "A"⟩ ∧
    (∀ text : String, (∀ c ∈ text.data, c ≠ braceL) →
      try_load_json_from_text text = none) ∧
    json_loads jsonSingleQuoted = none ∧
    try_load_json_from_text jsonSingleQuoted
      = some (JsonVal.obj
          [("is_new_faq", .bool true), ("question", .str "Q"), ("answer", .str "A")]) := by
  refine ⟨rfl, rfl, ?_, rfl, rfl⟩
  intro text h
  unfold try_load_json_from_text
  rw [findBrace_none h]

/-- Witness for C7: a concrete brace-free input yields `None`. -/
theorem c7_extractor_witness :
    try_load_json_from_text "no structured data in this reply" = none :=
  c7_extractor.2.2.1 "no structured data in this reply" (by decide)

/-- C8 counterexample: learning is not idempotent as claimed — a candidate
question consisting only of punctuation cleans to an empty probe query, the
probe then short-circuits to "no match" without consulting the store, and
submitting the same (question, answer) pair twice stores two records. -/
theorem c8_duplicate_insert_cex :
    learn_update ⟨true, "???", "x"⟩ (learn_update ⟨true, "???", "x"⟩ [])
      = [⟨"???", "x"⟩, ⟨"???", "x"⟩] := by decide

/-- C8 amended: before inserting, the candidate question probes the current
store through the same lexical matcher and any truthy probe result skips the
insert; consequently the double-submission of one candidate stores at most
one record — provided the cleaned question still carries at least one token
(so the probe actually runs) and every stored answer is non-empty (so a probe
hit is truthy).  Without the token proviso the counterexample above applies. -/
theorem c8_learning_idempotent (g : GenResult) (store : List Row)
    (htok : tokenSet (queryClean (clean_model_output (pyStrip g.question))) ≠ ∅)
    (hans : ∀ r ∈ store, r.answer ≠ "") :
    learn_update g (learn_update g store) = learn_update g store ∧
    (learn_update g (learn_update g store)).length ≤ store.length + 1 := by
  by_cases hact : g.is_new_faq = true ∧ clean_model_output (pyStrip g.question) ≠ ""
      ∧ clean_model_output (pyStrip g.answer) ≠ ""
  · cases hsim : search_faq_ok (clean_model_output (pyStrip g.question)) store with
    | some x =>
      have hxne : x ≠ "" := by
        obtain ⟨r, hr, hxr⟩ := search_faq_ok_mem hsim
        rw [hxr]
        exact hans r hr
      have hL1 : learn_inserts g (.ok store) (.ok ()) = [] := by
        unfold learn_inserts
        rw [if_pos hact, search_faq_ok_read, hsim]
        have : truthyStr (some x) = true := by
          simp [truthyStr, hxne]
        simp only [this, if_true]
      have hupd : learn_update g store = store := by
        unfold learn_update
        rw [hL1, List.append_nil]
      rw [hupd, hupd]
      exact ⟨rfl, Nat.le_succ _⟩
    | none =>
      have hL1 : learn_inserts g (.ok store) (.ok ())
          = [⟨clean_model_output (pyStrip g.question),
              clean_model_output (pyStrip g.answer)⟩] := by
        unfold learn_inserts
        rw [if_pos hact, search_faq_ok_read, hsim]
        have ht : truthyStr none = false := rfl
        have hcase : ¬ (clean_model_output (pyStrip g.question) = ""
            ∨ clean_model_output (pyStrip g.answer) = "") := by
          intro hor
          rcases hor with h | h
          · exact hact.2.1 h
          · exact hact.2.2 h
        simp only [ht, Bool.false_eq_true, if_false, if_neg hcase]
      have hupd : learn_update g store
          = store ++ [⟨clean_model_output (pyStrip g.question),
                       clean_model_output (pyStrip g.answer)⟩] := by
        unfold learn_update
        rw [hL1]
      obtain ⟨x, hx, hxne⟩ := probe_finds_inserted htok hans hact.2.2
      have hL2 : learn_inserts g (.ok (learn_update g store)) (.ok ()) = [] := by
        unfold learn_inserts
        rw [if_pos hact, search_faq_ok_read, hupd, hx]
        have : truthyStr (some x) = true := by
          simp [truthyStr, hxne]
        simp only [this, if_true]
      have hupd2 : learn_update g (learn_update g store) = learn_update g store := by
        have hstep : learn_update g (learn_update g store)
            = learn_update g store
              ++ learn_inserts g (.ok (learn_update g store)) (.ok ()) := rfl
        rw [hstep, hL2, List.append_nil]
      refine ⟨hupd2, ?_⟩
      rw [hupd2, hupd]
      simp
  · have hL : ∀ probe, learn_inserts g probe (.ok ()) = [] := by
      intro probe
      unfold learn_inserts
      rw [if_neg hact]
    have hupd : learn_update g store = store := by
      unfold learn_update
      rw [hL, List.append_nil]
    rw [hupd, hupd]
    exact ⟨rfl, Nat.le_succ _⟩

/-- Witness for C8 amended: double submission of a well-formed candidate over
an empty store keeps a single record. -/
theorem c8_learning_idempotent_witness :
    learn_update ⟨true, "What time is checkout?", "Noon."⟩
        (learn_update ⟨true, "What time is checkout?", "Noon."⟩ [])
      = learn_update ⟨true, "What time is checkout?", "Noon."⟩ [] ∧
    (learn_update ⟨true, "What time is checkout?", "Noon."⟩
        (learn_update ⟨true, "What time is checkout?", "Noon."⟩ [])).length
      ≤ ([] : List Row).length + 1 :=
  c8_learning_idempotent ⟨true, "What time is checkout?", "Noon."⟩ [] (by decide) (by decide)
